import Mathlib

/-!
Shallow embedding of the filter engine in `utils.py` of the akshare_mcp
repository: the condition-string compiler `_parse_condition_to_query`, the
facade `apply_filters_for_data_frame`, the outlier filter
`__filter_abnormal_3delta` and the rolling percentile `__calculate_percentile`.

Modelling conventions:
- Python strings are `List Char`; the regular expressions of the source are
  implemented directly as scanners with the same matching semantics
  (leftmost, non-overlapping, greedy token classes).  Python `\w` is modelled
  as ASCII alphanumerics, underscore and the CJK block U+4E00..U+9FA5 that
  the source's own character classes name; the full Unicode tables are not
  needed by any condition appearing in the claims.
- A pandas DataFrame is a column-name list plus row-major cell lists; cell
  values are exact rationals or strings (floats are idealised as `ℚ`, and as
  `ℝ` where the source takes a square root).  `NaN` / missing is `Option`.
- Raised `ValueError`s are `Except.error` carrying the message the source
  formats.
-/

namespace AkshareMcp

attribute [local semireducible] Rat.add Rat.mul Rat.inv Rat.sub

/-- Decidable equality of `Except` results, for evaluating the model on
concrete inputs. -/
instance exceptDecEq {ε α : Type} [DecidableEq ε] [DecidableEq α] :
    DecidableEq (Except ε α) := fun x y =>
  match x, y with
  | .error a, .error b =>
    if h : a = b then .isTrue (by rw [h]) else .isFalse (fun hh => by cases hh; exact h rfl)
  | .ok a, .ok b =>
    if h : a = b then .isTrue (by rw [h]) else .isFalse (fun hh => by cases hh; exact h rfl)
  | .error _, .ok _ => .isFalse (fun hh => by cases hh)
  | .ok _, .error _ => .isFalse (fun hh => by cases hh)

/-- The backtick character (pandas query column quoting). -/
def cBT : Char := Char.ofNat 96

/-- The single-quote character. -/
def cSQ : Char := Char.ofNat 39

/-- The double-quote character. -/
def cDQ : Char := Char.ofNat 34

/-- ASCII letter. -/
def isAsciiAlpha (c : Char) : Bool :=
  (65 ≤ c.toNat && c.toNat ≤ 90) || (97 ≤ c.toNat && c.toNat ≤ 122)

/-- ASCII digit. -/
def isAsciiDigit (c : Char) : Bool := 48 ≤ c.toNat && c.toNat ≤ 57

/-- CJK ideograph in U+4E00..U+9FA5, the block named by the source regexes. -/
def isCJK (c : Char) : Bool := 0x4e00 ≤ c.toNat && c.toNat ≤ 0x9fa5

/-- Python `\w` restricted to ASCII word characters plus the CJK block. -/
def pyWordChar (c : Char) : Bool :=
  isAsciiAlpha c || isAsciiDigit c || c == '_' || isCJK c

/-- Leading character of the source's column pattern `[a-zA-Z_一-龥]`. -/
def identLead (c : Char) : Bool := isAsciiAlpha c || c == '_' || isCJK c

/-- Continuation class of the column pattern `[\w一-龥\-%]`. -/
def identCont (c : Char) : Bool := pyWordChar c || c == '-' || c == '%'

/-- Python `\s` (ASCII whitespace). -/
def pySpace (c : Char) : Bool :=
  c == ' ' || c.toNat == 9 || c.toNat == 10 || c.toNat == 13 ||
    c.toNat == 11 || c.toNat == 12

/-- Model of Python `str.strip()`. -/
def stripWs (l : List Char) : List Char :=
  ((l.dropWhile pySpace).reverse.dropWhile pySpace).reverse

/-- Collapse every whitespace run to a single blank, as `re.sub(r"\s+", " ", ·)`. -/
def squashWs : List Char → List Char
  | [] => []
  | [c] => [if pySpace c then ' ' else c]
  | c :: d :: rest =>
    if pySpace c && pySpace d then squashWs (d :: rest)
    else (if pySpace c then ' ' else c) :: squashWs (d :: rest)

/-- Line 101 of `utils.py`: `re.sub(r"\s+", " ", condition.strip())`. -/
def normalizeCond (l : List Char) : List Char := squashWs (stripWs l)

/-- Model of `re.findall(column_pattern, condition)`: leftmost non-overlapping
maximal tokens of shape `identLead identCont*`. -/
def findIdentsAux : ℕ → List Char → List (List Char)
  | 0, _ => []
  | _, [] => []
  | fuel + 1, c :: cs =>
    if identLead c then
      (c :: cs.takeWhile identCont) :: findIdentsAux fuel (cs.dropWhile identCont)
    else findIdentsAux fuel cs

/-- All identifier tokens of a condition string. -/
def findIdents (l : List Char) : List (List Char) := findIdentsAux (l.length + 1) l

/-- Line 104: the fixed keyword set.  Note that `in`, `not in`, `contains` are
absent although the docstring advertises them as operators. -/
def LOGIC_KEYWORDS : List String := [ "AND", "OR", "NOT", "and", "or", "not" ]

/-- Deduplicate keeping the first occurrence (deterministic stand-in for the
Python `set`, whose iteration order is unspecified). -/
def dedupFirstAux : ℕ → List String → List String
  | 0, _ => []
  | _, [] => []
  | fuel + 1, x :: xs => x :: dedupFirstAux fuel (xs.filter (fun y => y ≠ x))

/-- Deduplicate keeping the first occurrence. -/
def dedupFirst (l : List String) : List String := dedupFirstAux (l.length + 1) l

/-- Line 108: `set(re.findall(column_pattern, condition)) - LOGIC_KEYWORDS`. -/
def referencedColumns (condition : String) : List String :=
  (dedupFirst ((findIdents (normalizeCond condition.toList)).map String.mk)).filter
    (fun t => !(LOGIC_KEYWORDS.contains t))

/-- Line 111: the referenced names that are not valid columns. -/
def invalidColumnsOf (condition : String) (validCols : List String) : List String :=
  (referencedColumns condition).filter (fun c => !(validCols.contains c))

/-- Python `repr` of a list of strings, as interpolated into the error at
line 113 (`f"无效列名: {invalid_cols}"`). -/
def pyListRepr (xs : List String) : String :=
  "[" ++ String.intercalate ", " (xs.map (fun x => "'" ++ x ++ "'")) ++ "]"

/-- Substring test (Python `x in condition` on strings). -/
def hasInfixL (l pat : List Char) : Bool :=
  (List.range (l.length + 1)).any (fun i => pat.isPrefixOf (l.drop i))

/-- Model of Python `str.replace(pat, rep)`: replace every non-overlapping
occurrence, left to right. -/
def replaceAllAux (pat rep : List Char) : ℕ → List Char → List Char
  | 0, l => l
  | _, [] => []
  | fuel + 1, c :: cs =>
    if !pat.isEmpty && pat.isPrefixOf (c :: cs) then
      rep ++ replaceAllAux pat rep fuel ((c :: cs).drop pat.length)
    else c :: replaceAllAux pat rep fuel cs

/-- Replace every occurrence of `pat` by `rep`. -/
def replaceAll (pat rep l : List Char) : List Char :=
  replaceAllAux pat rep (l.length + 1) l

/-- Lookbehind `(?<!\w)`: start of string or previous char not a word char. -/
def prevOkWord : Option Char → Bool
  | none => true
  | some p => !(pyWordChar p)

/-- Lookahead `(?!\w)`: end of string or next char not a word char. -/
def nextOkWord : List Char → Bool
  | [] => true
  | d :: _ => !(pyWordChar d)

/-- Model of `re.sub(rf"(?<!\w){pat}(?!\w)", rep, ·)` for a literal `pat`
(resuming after each match, as the `re` engine does). -/
def subWordBoundedAux (pat rep : List Char) : ℕ → Option Char → List Char → List Char
  | 0, _, l => l
  | _, _, [] => []
  | fuel + 1, prev, c :: cs =>
    if !pat.isEmpty && pat.isPrefixOf (c :: cs) && prevOkWord prev &&
        nextOkWord ((c :: cs).drop pat.length) then
      rep ++ subWordBoundedAux pat rep fuel pat.getLast? ((c :: cs).drop pat.length)
    else c :: subWordBoundedAux pat rep fuel (some c) cs

/-- Word-boundary-safe substitution of a literal pattern. -/
def subWordBounded (pat rep l : List Char) : List Char :=
  subWordBoundedAux pat rep (l.length + 1) none l

/-- Lookbehind `(?<!\S)`: start of string or previous char is whitespace. -/
def prevOkSpace : Option Char → Bool
  | none => true
  | some p => pySpace p

/-- Lookahead `(?!\S)`: end of string or next char is whitespace. -/
def nextOkSpace : List Char → Bool
  | [] => true
  | d :: _ => pySpace d

/-- Model of `re.sub(rf"(?<!\S){pat}(?!\S)", rep, ·)` for a literal `pat`. -/
def subSpaceBoundedAux (pat rep : List Char) : ℕ → Option Char → List Char → List Char
  | 0, _, l => l
  | _, _, [] => []
  | fuel + 1, prev, c :: cs =>
    if !pat.isEmpty && pat.isPrefixOf (c :: cs) && prevOkSpace prev &&
        nextOkSpace ((c :: cs).drop pat.length) then
      rep ++ subSpaceBoundedAux pat rep fuel pat.getLast? ((c :: cs).drop pat.length)
    else c :: subSpaceBoundedAux pat rep fuel (some c) cs

/-- Whitespace-delimited substitution of a literal pattern. -/
def subSpaceBounded (pat rep l : List Char) : List Char :=
  subSpaceBoundedAux pat rep (l.length + 1) none l

/-- Model of `re.findall(r'[\'"](.*?)[\'"]', condition)` (line 116): shortest
spans between any two quote characters, `.` not crossing a newline. -/
def findQuotedAux : ℕ → List Char → List (List Char)
  | 0, _ => []
  | _, [] => []
  | fuel + 1, c :: cs =>
    if c == cSQ || c == cDQ then
      let stop := fun d => d == cSQ || d == cDQ || d == '\n'
      let content := cs.takeWhile (fun d => !(stop d))
      match cs.dropWhile (fun d => !(stop d)) with
      | d :: rest2 =>
        if d == cSQ || d == cDQ then content :: findQuotedAux fuel rest2
        else findQuotedAux fuel cs
      | [] => findQuotedAux fuel cs
    else findQuotedAux fuel cs

/-- Quoted spans of a condition string. -/
def findQuoted (l : List Char) : List (List Char) := findQuotedAux (l.length + 1) l

/-- Lines 116-121: rewrite `'col'` and `"col"` to a backtick-quoted column for
every quoted span whose content is a valid column. -/
def applyQuotedCols (quoted : List String) (validCols : List String)
    (cond : List Char) : List Char :=
  quoted.foldl
    (fun acc q =>
      if validCols.contains q then
        replaceAll (cDQ :: q.toList ++ [cDQ]) (cBT :: q.toList ++ [cBT])
          (replaceAll (cSQ :: q.toList ++ [cSQ]) (cBT :: q.toList ++ [cBT]) acc)
      else acc)
    cond

/-- Python `str.strip` with backtick argument (line 129). -/
def pyStripBT (l : List Char) : List Char :=
  ((l.dropWhile (· == cBT)).reverse.dropWhile (· == cBT)).reverse

/-- Try the pattern `` `?raw`? `` (line 132) at the head of `l`, with the
backtracking of the trailing optional backtick against the `(?!\w)` lookahead.
Returns the last character of the matched text and the rest of the input. -/
def matchSpecialAt (raw : List Char) (l : List Char) : Option (Char × List Char) :=
  let l1 := if l.head? == some cBT then l.drop 1 else l
  if !raw.isEmpty && raw.isPrefixOf l1 then
    let lastRaw := raw.getLastD ' '
    match l1.drop raw.length with
    | [] => some (lastRaw, [])
    | d :: ds =>
      if d == cBT then
        match ds with
        | [] => some (cBT, [])
        | e :: _ =>
          if !(pyWordChar e) then some (cBT, ds)
          else some (lastRaw, d :: ds)
      else if !(pyWordChar d) then some (lastRaw, d :: ds)
      else none
  else none

/-- Model of `re.sub(rf"(?<!\w)(`?{re.escape(raw_col)}`?)(?!\w)", f"`{raw_col}`", ·)`
used for column names containing `-`, `%` or a blank (lines 131-135). -/
def subSpecialAux (raw rep : List Char) : ℕ → Option Char → List Char → List Char
  | 0, _, l => l
  | _, _, [] => []
  | fuel + 1, prev, c :: cs =>
    match (if prevOkWord prev then matchSpecialAt raw (c :: cs) else none) with
    | some (lastC, rest) => rep ++ subSpecialAux raw rep fuel (some lastC) rest
    | none => c :: subSpecialAux raw rep fuel (some c) cs

/-- Does a column name contain one of the characters special-cased at line 127? -/
def hasSpecialChar (s : String) : Bool :=
  s.toList.contains '-' || s.toList.contains '%' || s.toList.contains ' '

/-- Lines 124-143: wrap every valid referenced column name in backticks. -/
def wrapColumns (columns : List String) (validCols : List String)
    (cond : List Char) : List Char :=
  columns.foldl
    (fun acc col =>
      if validCols.contains col then
        if hasSpecialChar col then
          let raw := pyStripBT col.toList
          subSpecialAux raw (cBT :: raw ++ [cBT]) (acc.length + 1) none acc
        else
          if hasInfixL acc (cBT :: col.toList ++ [cBT]) ||
              hasInfixL acc (cSQ :: col.toList ++ [cSQ]) ||
              hasInfixL acc (cDQ :: col.toList ++ [cDQ]) then acc
          else subWordBounded col.toList (cBT :: col.toList ++ [cBT]) acc
      else acc)
    cond

/-- Line 160: `re.sub(r"'(.*?)'", r'"\1"', condition)` — single-quoted
literals become double-quoted. -/
def sqToDqAux : ℕ → List Char → List Char
  | 0, l => l
  | _, [] => []
  | fuel + 1, c :: cs =>
    if c == cSQ then
      let content := cs.takeWhile (fun d => !(d == cSQ) && !(d == '\n'))
      match cs.dropWhile (fun d => !(d == cSQ) && !(d == '\n')) with
      | d :: rest2 =>
        if d == cSQ then cDQ :: content ++ cDQ :: sqToDqAux fuel rest2
        else c :: sqToDqAux fuel cs
      | [] => c :: sqToDqAux fuel cs
    else c :: sqToDqAux fuel cs

/-- Single-to-double quote conversion. -/
def sqToDq (l : List Char) : List Char := sqToDqAux (l.length + 1) l

/-- A cell value of a DataFrame or a literal: an exact rational (idealising
Python int/float) or a string. -/
inductive Val where
  | num (q : ℚ)
  | str (s : String)
deriving DecidableEq, Repr

/-- Digits to a natural number, empty list meaning 0. -/
def digitsToNat (l : List Char) : ℕ :=
  l.foldl (fun acc c => acc * 10 + (c.toNat - 48)) 0

/-- Parse an unsigned decimal numeral (digits, optionally a point and more
digits).  Exponent notation is not modelled; no claim exercises it. -/
def pyParseNumCore (l : List Char) : Option ℚ :=
  let intPart := l.takeWhile isAsciiDigit
  let rest := l.dropWhile isAsciiDigit
  match rest with
  | [] => if intPart.isEmpty then none else some ((digitsToNat intPart : ℚ))
  | c :: rest2 =>
    if c == '.' then
      let frac := rest2.takeWhile isAsciiDigit
      let rest3 := rest2.dropWhile isAsciiDigit
      if rest3.isEmpty then
        if intPart.isEmpty && frac.isEmpty then none
        else some ((digitsToNat intPart : ℚ) +
          (digitsToNat frac : ℚ) / (10 : ℚ) ^ frac.length)
      else none
    else none

/-- Parse a signed decimal numeral. -/
def pyParseNum (l : List Char) : Option ℚ :=
  match l with
  | c :: rest =>
    if c == '-' then (pyParseNumCore rest).map Neg.neg
    else if c == '+' then pyParseNumCore rest
    else pyParseNumCore l
  | [] => none

/-- Parse one element of a Python list literal (a quoted string or a number),
returning the value and the unconsumed input. -/
def parseListElem (l : List Char) : Option (Val × List Char) :=
  match l with
  | [] => none
  | c :: cs =>
    if c == cSQ || c == cDQ then
      let content := cs.takeWhile (fun d => !(d == c))
      match cs.dropWhile (fun d => !(d == c)) with
      | _ :: rest2 => some (Val.str (String.mk content), rest2)
      | [] => none
    else
      let numCs := (c :: cs).takeWhile
        (fun d => isAsciiDigit d || d == '.' || d == '-' || d == '+')
      match pyParseNum numCs with
      | some q => some (Val.num q,
          (c :: cs).dropWhile (fun d => isAsciiDigit d || d == '.' || d == '-' || d == '+'))
      | none => none

/-- Elements after the opening bracket: `elem (ws , ws elem)* ws ]`. -/
def parseListElemsAux : ℕ → List Char → Option (List Val × List Char)
  | 0, _ => none
  | fuel + 1, l =>
    match parseListElem (l.dropWhile pySpace) with
    | none => none
    | some (v, rest) =>
      let rest1 := rest.dropWhile pySpace
      match rest1 with
      | c :: rest2 =>
        if c == ',' then
          match parseListElemsAux fuel rest2 with
          | some (vs, rest3) => some (v :: vs, rest3)
          | none => none
        else if c == ']' then some ([v], rest2)
        else none
      | [] => none

/-- Model of `ast.literal_eval` restricted to list literals of strings and
numbers (string escapes are not modelled; no claim exercises them).  Returns
`none` where `literal_eval` raises. -/
def pyLiteralEvalList (l : List Char) : Option (List Val) :=
  match (stripWs l) with
  | c :: cs =>
    if c == '[' then
      let cs1 := cs.dropWhile pySpace
      match cs1 with
      | d :: rest =>
        if d == ']' then (if (rest.dropWhile pySpace).isEmpty then some [] else none)
        else
          match parseListElemsAux (cs1.length + 1) cs1 with
          | some (vs, rest2) =>
            if (rest2.dropWhile pySpace).isEmpty then some vs else none
          | none => none
      | [] => none
    else none
  | [] => none

/-- Python `str` of a parsed literal value.  For a rational that is an
integer this matches CPython; a non-integral float prints differently in
CPython, but no verified scenario reaches that branch. -/
def pyReprVal : Val → String
  | .num q => if q.den == 1 then toString q.num else toString q
  | .str s => "'" ++ s ++ "'"

/-- Python `str` of a list of parsed literal values. -/
def pyReprValList (vs : List Val) : String :=
  "[" ++ String.intercalate ", " (vs.map pyReprVal) ++ "]"

/-- Lines 167-192, the `replace_in` callback: wrap the captured column in
backticks (doubling them if the capture is already wrapped, exactly as the
source's f-string does) and emit the `isin` membership test. -/
def replace_in (g1 : List Char) (isIn : Bool) (listChars : List Char) :
    Except String (List Char) :=
  let col :=
    if g1.contains '-' || g1.contains '%' || g1.contains ' ' then
      if !(g1.head? == some cBT) || !(g1.getLast? == some cBT) then
        cBT :: pyStripBT g1 ++ [cBT]
      else g1
    else
      if !(g1.head? == some cBT) then cBT :: g1 ++ [cBT] else g1
  match pyLiteralEvalList listChars with
  | none => .error ( "无效的列表格式: " ++ String.mk listChars)
  | some vs =>
    let valuesStr := (pyReprValList vs).toList
    if isIn then .ok (cBT :: col ++ [cBT] ++ ".isin(".toList ++ valuesStr ++ [')'])
    else .ok ('~' :: cBT :: col ++ [cBT] ++ ".isin(".toList ++ valuesStr ++ [')'])

/-- After `(in|not in)`: require `\s+` then the non-greedy bracket group
`(\[.*?\])`.  Returns the bracketed text and the rest of the input. -/
def matchSpList (l : List Char) : Option (List Char × List Char) :=
  if (l.takeWhile pySpace).isEmpty then none
  else
    match l.dropWhile pySpace with
    | c :: cs =>
      if c == '[' then
        let stop := fun d => d == ']' || d == '\n'
        let content := cs.takeWhile (fun d => !(stop d))
        match cs.dropWhile (fun d => !(stop d)) with
        | d :: rest2 =>
          if d == ']' then some ('[' :: content ++ [']'], rest2) else none
        | [] => none
      else none
    | [] => none

/-- The `(in|not in)\s+(\[.*?\])` tail of the in-pattern, trying the
alternatives in the order the regex does. -/
def matchOpAndList (l : List Char) : Option (Bool × List Char × List Char) :=
  if l.take 2 = [ 'i', 'n' ] then
    match matchSpList (l.drop 2) with
    | some (vs, rest) => some (true, vs, rest)
    | none =>
      if l.take 6 = "not in".toList then
        (matchSpList (l.drop 6)).map (fun pr => (false, pr.1, pr.2))
      else none
  else if l.take 6 = "not in".toList then
    (matchSpList (l.drop 6)).map (fun pr => (false, pr.1, pr.2))
  else none

/-- Try the whole in-pattern (line 163) at the head of the input: capture
`` `?ident`? ``, whitespace, the operator and the bracketed list. -/
def matchInPattern (l : List Char) : Option (List Char × Bool × List Char × List Char) :=
  let lead1 : List Char := if l.head? == some cBT then [cBT] else []
  let l1 := if l.head? == some cBT then l.drop 1 else l
  match l1 with
  | [] => none
  | c :: cs =>
    if identLead c then
      let tok := c :: cs.takeWhile identCont
      let l2 := cs.dropWhile identCont
      let tick2 : List Char := if l2.head? == some cBT then [cBT] else []
      let l3 := if l2.head? == some cBT then l2.drop 1 else l2
      let g1 := lead1 ++ tok ++ tick2
      if (l3.takeWhile pySpace).isEmpty then none
      else
        match matchOpAndList (l3.dropWhile pySpace) with
        | some (isIn, listC, rest) => some (g1, isIn, listC, rest)
        | none => none
    else none

/-- Line 194: `re.sub(in_pattern, replace_in, condition)`, with the callback's
`ValueError` propagating out. -/
def reSubInAux : ℕ → List Char → Except String (List Char)
  | 0, l => .ok l
  | _, [] => .ok []
  | fuel + 1, c :: cs =>
    match matchInPattern (c :: cs) with
    | some (g1, isIn, listC, rest) =>
      match replace_in g1 isIn listC with
      | .error e => .error e
      | .ok rep =>
        match reSubInAux fuel rest with
        | .error e => .error e
        | .ok tail => .ok (rep ++ tail)
    | none =>
      match reSubInAux fuel cs with
      | .error e => .error e
      | .ok tail => .ok (c :: tail)

/-- Rewrite membership expressions. -/
def reSubIn (l : List Char) : Except String (List Char) :=
  reSubInAux (l.length + 1) l

/-- Lines 196-199: uppercase logical connectives to pandas operators with
`\b`-bounded substitution (`\bAND\b → &`, `\bOR\b → |`, `\bNOT\b → ~`). -/
def logicSubs (l : List Char) : List Char :=
  subWordBounded ( "NOT").toList [ '~' ]
    (subWordBounded ( "OR").toList [ '|' ]
      (subWordBounded ( "AND").toList [ '&' ] l))

/-- Lines 146-157: the operator pattern table, applied in source order. -/
def operatorPatterns : List (List Char × List Char) :=
  [ (( "!=").toList, ( "!=").toList),
    (( "=").toList, ( "==").toList),
    (( ">").toList, ( ">").toList),
    (( "<").toList, ( "<").toList),
    (( ">=").toList, ( ">=").toList),
    (( "<=").toList, ( "<=").toList),
    (( "in").toList, ( ".isin(").toList),
    (( "not in").toList, ( ".notin(").toList),
    (( "contains").toList, ( ".str.contains(").toList),
    (( "not contains").toList, ( ".str.contains(").toList) ]

/-- Lines 201-203: apply the operator substitutions. -/
def applyOperatorPatterns (l : List Char) : List Char :=
  operatorPatterns.foldl (fun acc pr => subSpaceBounded pr.1 pr.2 acc) l

/-- Token of the pandas query expression language (parser `pandas`, where `&`
and `|` get boolean precedence). -/
inductive QTok where
  | tid (s : String)
  | tnum (q : ℚ)
  | tstr (s : String)
  | tsym (s : String)
  | tcol (s : String)
deriving DecidableEq, Repr

/-- Tokenizer for the expression handed to `DataFrame.query`. -/
def tokenizeAux : ℕ → List Char → Except String (List QTok)
  | 0, _ => .error ( "tokenizer out of fuel")
  | _, [] => .ok []
  | fuel + 1, c :: cs =>
    if pySpace c then tokenizeAux fuel cs
    else if c == cBT then
      let content := cs.takeWhile (fun d => !(d == cBT))
      match cs.dropWhile (fun d => !(d == cBT)) with
      | _ :: rest2 =>
        match tokenizeAux fuel rest2 with
        | .ok ts => .ok (QTok.tcol (String.mk content) :: ts)
        | .error e => .error e
      | [] => .error ( "unterminated backquote")
    else if c == cDQ || c == cSQ then
      let content := cs.takeWhile (fun d => !(d == c))
      match cs.dropWhile (fun d => !(d == c)) with
      | _ :: rest2 =>
        match tokenizeAux fuel rest2 with
        | .ok ts => .ok (QTok.tstr (String.mk content) :: ts)
        | .error e => .error e
      | [] => .error ( "unterminated string literal")
    else if isAsciiDigit c || (c == '.' && ((cs.head?.map isAsciiDigit).getD false)) then
      let isNumC := fun d => isAsciiDigit d || d == '.'
      let numCs := (c :: cs).takeWhile isNumC
      match pyParseNum numCs with
      | some q =>
        match tokenizeAux fuel ((c :: cs).dropWhile isNumC) with
        | .ok ts => .ok (QTok.tnum q :: ts)
        | .error e => .error e
      | none => .error ( "invalid number: " ++ String.mk numCs)
    else if identLead c then
      let tokCs := c :: cs.takeWhile pyWordChar
      match tokenizeAux fuel (cs.dropWhile pyWordChar) with
      | .ok ts => .ok (QTok.tid (String.mk tokCs) :: ts)
      | .error e => .error e
    else
      let two := (c :: cs).take 2
      if two = ( ">=").toList || two = ( "<=").toList ||
          two = ( "==").toList || two = ( "!=").toList then
        match tokenizeAux fuel (cs.drop 1) with
        | .ok ts => .ok (QTok.tsym (String.mk two) :: ts)
        | .error e => .error e
      else if c == '>' || c == '<' || c == '&' || c == '|' || c == '~' ||
          c == '(' || c == ')' || c == '[' || c == ']' || c == ',' ||
          c == '.' || c == '-' || c == '+' then
        match tokenizeAux fuel cs with
        | .ok ts => .ok (QTok.tsym (String.mk [c]) :: ts)
        | .error e => .error e
      else .error ( "unexpected character: " ++ String.mk [c])

/-- Tokenize a query expression string. -/
def tokenizeQuery (s : String) : Except String (List QTok) :=
  tokenizeAux (s.toList.length + 1) s.toList

/-- Abstract syntax of the safe query expressions: comparisons, membership,
boolean connectives over named columns and literals. -/
inductive QExpr where
  | col (name : String)
  | lit (v : Val)
  | cmp (op : String) (a b : QExpr)
  | land (a b : QExpr)
  | lor (a b : QExpr)
  | lnot (a : QExpr)
  | isin (a : QExpr) (vs : List Val)
deriving DecidableEq, Repr

/-- Column names referenced by a query expression. -/
def qexprColumns : QExpr → List String
  | .col n => [n]
  | .lit _ => []
  | .cmp _ a b => qexprColumns a ++ qexprColumns b
  | .land a b => qexprColumns a ++ qexprColumns b
  | .lor a b => qexprColumns a ++ qexprColumns b
  | .lnot a => qexprColumns a
  | .isin a _ => qexprColumns a

/-- Comparison operator tokens. -/
def cmpOps : List String := [ ">", "<", ">=", "<=", "==", "!=" ]

mutual

/-- Disjunction level (`|`, `or`). -/
def parseOrE : ℕ → List QTok → Except String (QExpr × List QTok)
  | 0, _ => .error ( "expression too deep")
  | fuel + 1, ts =>
    match parseAndE fuel ts with
    | .error e => .error e
    | .ok (a, ts1) => parseOrRest fuel a ts1

/-- Remaining disjuncts. -/
def parseOrRest : ℕ → QExpr → List QTok → Except String (QExpr × List QTok)
  | 0, _, _ => .error ( "expression too deep")
  | fuel + 1, a, ts =>
    match ts with
    | QTok.tsym s :: rest =>
      if s = "|" then
        match parseAndE fuel rest with
        | .error e => .error e
        | .ok (b, ts2) => parseOrRest fuel (QExpr.lor a b) ts2
      else .ok (a, ts)
    | QTok.tid s :: rest =>
      if s = "or" then
        match parseAndE fuel rest with
        | .error e => .error e
        | .ok (b, ts2) => parseOrRest fuel (QExpr.lor a b) ts2
      else .ok (a, ts)
    | _ => .ok (a, ts)

/-- Conjunction level (`&`, `and`). -/
def parseAndE : ℕ → List QTok → Except String (QExpr × List QTok)
  | 0, _ => .error ( "expression too deep")
  | fuel + 1, ts =>
    match parseNotE fuel ts with
    | .error e => .error e
    | .ok (a, ts1) => parseAndRest fuel a ts1

/-- Remaining conjuncts. -/
def parseAndRest : ℕ → QExpr → List QTok → Except String (QExpr × List QTok)
  | 0, _, _ => .error ( "expression too deep")
  | fuel + 1, a, ts =>
    match ts with
    | QTok.tsym s :: rest =>
      if s = "&" then
        match parseNotE fuel rest with
        | .error e => .error e
        | .ok (b, ts2) => parseAndRest fuel (QExpr.land a b) ts2
      else .ok (a, ts)
    | QTok.tid s :: rest =>
      if s = "and" then
        match parseNotE fuel rest with
        | .error e => .error e
        | .ok (b, ts2) => parseAndRest fuel (QExpr.land a b) ts2
      else .ok (a, ts)
    | _ => .ok (a, ts)

/-- Negation level (`~`, `not`). -/
def parseNotE : ℕ → List QTok → Except String (QExpr × List QTok)
  | 0, _ => .error ( "expression too deep")
  | fuel + 1, ts =>
    match ts with
    | QTok.tsym s :: rest =>
      if s = "~" then
        match parseNotE fuel rest with
        | .error e => .error e
        | .ok (a, ts1) => .ok (QExpr.lnot a, ts1)
      else parseCmpE fuel ts
    | QTok.tid s :: rest =>
      if s = "not" then
        match parseNotE fuel rest with
        | .error e => .error e
        | .ok (a, ts1) => .ok (QExpr.lnot a, ts1)
      else parseCmpE fuel ts
    | _ => parseCmpE fuel ts

/-- Comparison level, including `in` / `not in` membership. -/
def parseCmpE : ℕ → List QTok → Except String (QExpr × List QTok)
  | 0, _ => .error ( "expression too deep")
  | fuel + 1, ts =>
    match parsePostE fuel ts with
    | .error e => .error e
    | .ok (a, ts1) =>
      match ts1 with
      | QTok.tsym op :: rest =>
        if cmpOps.contains op then
          match parsePostE fuel rest with
          | .error e => .error e
          | .ok (b, ts2) =>
            match ts2 with
            | QTok.tsym op2 :: _ =>
              if cmpOps.contains op2 then .error ( "chained comparison")
              else .ok (QExpr.cmp op a b, ts2)
            | _ => .ok (QExpr.cmp op a b, ts2)
        else .ok (a, ts1)
      | QTok.tid s :: rest =>
        if s = "in" then
          match parseListLit fuel rest with
          | .error e => .error e
          | .ok (vs, ts2) => .ok (QExpr.isin a vs, ts2)
        else if s = "not" then
          match rest with
          | QTok.tid s2 :: rest2 =>
            if s2 = "in" then
              match parseListLit fuel rest2 with
              | .error e => .error e
              | .ok (vs, ts2) => .ok (QExpr.lnot (QExpr.isin a vs), ts2)
            else .ok (a, ts1)
          | _ => .ok (a, ts1)
        else .ok (a, ts1)
      | _ => .ok (a, ts1)

/-- Postfix level: `.isin([...])` method calls.  Any other attribute access
(such as the never-closed `.str.contains(` the compiler emits) fails, as the
pandas engine rejects it. -/
def parsePostE : ℕ → List QTok → Except String (QExpr × List QTok)
  | 0, _ => .error ( "expression too deep")
  | fuel + 1, ts =>
    match parsePrimE fuel ts with
    | .error e => .error e
    | .ok (a, ts1) => parsePostRest fuel a ts1

/-- Remaining postfix method calls. -/
def parsePostRest : ℕ → QExpr → List QTok → Except String (QExpr × List QTok)
  | 0, _, _ => .error ( "expression too deep")
  | fuel + 1, a, ts =>
    match ts with
    | QTok.tsym dot :: QTok.tid m :: QTok.tsym par :: rest =>
      if dot = "." && par = "(" then
        if m = "isin" then
          match parseListLit fuel rest with
          | .error e => .error e
          | .ok (vs, ts2) =>
            match ts2 with
            | QTok.tsym cp :: ts3 =>
              if cp = ")" then parsePostRest fuel (QExpr.isin a vs) ts3
              else .error ( "expected closing parenthesis")
            | _ => .error ( "expected closing parenthesis")
        else .error ( "unsupported method: " ++ m)
      else if dot = "." then .error ( "unsupported attribute access")
      else .ok (a, ts)
    | QTok.tsym dot :: _ =>
      if dot = "." then .error ( "unsupported attribute access")
      else .ok (a, ts)
    | _ => .ok (a, ts)

/-- Primary level: literals, column names, parenthesised expressions. -/
def parsePrimE : ℕ → List QTok → Except String (QExpr × List QTok)
  | 0, _ => .error ( "expression too deep")
  | fuel + 1, ts =>
    match ts with
    | QTok.tnum q :: rest => .ok (QExpr.lit (Val.num q), rest)
    | QTok.tstr s :: rest => .ok (QExpr.lit (Val.str s), rest)
    | QTok.tcol n :: rest => .ok (QExpr.col n, rest)
    | QTok.tid n :: rest =>
      if n = "and" || n = "or" || n = "not" || n = "in" then
        .error ( "unexpected keyword: " ++ n)
      else .ok (QExpr.col n, rest)
    | QTok.tsym s :: QTok.tnum q :: rest =>
      if s = "-" then .ok (QExpr.lit (Val.num (-q)), rest)
      else if s = "(" then
        match parseOrE fuel (QTok.tnum q :: rest) with
        | .error e => .error e
        | .ok (a, ts1) =>
          match ts1 with
          | QTok.tsym cp :: ts2 =>
            if cp = ")" then .ok (a, ts2) else .error ( "expected closing parenthesis")
          | _ => .error ( "expected closing parenthesis")
      else .error ( "unexpected token")
    | QTok.tsym s :: rest =>
      if s = "(" then
        match parseOrE fuel rest with
        | .error e => .error e
        | .ok (a, ts1) =>
          match ts1 with
          | QTok.tsym cp :: ts2 =>
            if cp = ")" then .ok (a, ts2) else .error ( "expected closing parenthesis")
          | _ => .error ( "expected closing parenthesis")
      else .error ( "unexpected token")
    | [] => .error ( "unexpected end of expression")

/-- Bracketed literal list inside an expression. -/
def parseListLit : ℕ → List QTok → Except String (List Val × List QTok)
  | 0, _ => .error ( "expression too deep")
  | fuel + 1, ts =>
    match ts with
    | QTok.tsym ob :: rest =>
      if ob = "[" then
        match rest with
        | QTok.tsym cb :: rest2 =>
          if cb = "]" then .ok ([], rest2) else parseListItems fuel rest
        | _ => parseListItems fuel rest
      else .error ( "expected a list literal")
    | _ => .error ( "expected a list literal")

/-- Comma-separated literal items ending at the closing bracket. -/
def parseListItems : ℕ → List QTok → Except String (List Val × List QTok)
  | 0, _ => .error ( "expression too deep")
  | fuel + 1, ts =>
    match parseLitVal ts with
    | .error e => .error e
    | .ok (v, ts1) =>
      match ts1 with
      | QTok.tsym s :: rest =>
        if s = "," then
          match parseListItems fuel rest with
          | .error e => .error e
          | .ok (vs, ts2) => .ok (v :: vs, ts2)
        else if s = "]" then .ok ([v], rest)
        else .error ( "malformed list literal")
      | _ => .error ( "malformed list literal")

/-- One literal value in a list. -/
def parseLitVal : List QTok → Except String (Val × List QTok)
  | QTok.tnum q :: rest => .ok (Val.num q, rest)
  | QTok.tstr s :: rest => .ok (Val.str s, rest)
  | QTok.tsym s :: QTok.tnum q :: rest =>
    if s = "-" then .ok (Val.num (-q), rest) else .error ( "malformed list literal")
  | _ => .error ( "malformed list literal")

end

/-- Parse a complete query expression string. -/
def parseQueryString (s : String) : Except String QExpr :=
  match tokenizeQuery s with
  | .error e => .error e
  | .ok ts =>
    match parseOrE (8 * ts.length + 8) ts with
    | .error e => .error e
    | .ok (a, rest) =>
      if rest.isEmpty then .ok a else .error ( "unexpected trailing tokens")

/-- Result of evaluating a query sub-expression on one row. -/
inductive QRes where
  | rb (b : Bool)
  | rv (v : Val)
deriving DecidableEq, Repr

/-- Elementwise comparison semantics: rationals by order, strings
lexicographically; on mismatched types equality is false and inequality true
(as pandas yields elementwise `False`), ordered comparison is an error (as
pandas raises a `TypeError`). -/
def evalCmp (op : String) (x y : Val) : Except String Bool :=
  match x, y with
  | .num a, .num b =>
    if op = ">" then .ok (decide (b < a))
    else if op = "<" then .ok (decide (a < b))
    else if op = ">=" then .ok (decide (b ≤ a))
    else if op = "<=" then .ok (decide (a ≤ b))
    else if op = "==" then .ok (decide (a = b))
    else if op = "!=" then .ok (decide (a ≠ b))
    else .error ( "unknown comparison operator")
  | .str a, .str b =>
    if op = ">" then .ok (decide (b < a))
    else if op = "<" then .ok (decide (a < b))
    else if op = ">=" then .ok (!(decide (a < b)))
    else if op = "<=" then .ok (!(decide (b < a)))
    else if op = "==" then .ok (decide (a = b))
    else if op = "!=" then .ok (decide (a ≠ b))
    else .error ( "unknown comparison operator")
  | _, _ =>
    if op = "==" then .ok false
    else if op = "!=" then .ok true
    else .error ( "cannot order-compare number and string")

/-- Evaluate a query expression on a single row (pandas evaluates columnwise,
which agrees with rowwise evaluation for these operators). -/
def evalQ (cols : List String) (row : List Val) : QExpr → Except String QRes
  | .col n =>
    match cols.findIdx? (fun c => c = n) with
    | some i =>
      match row.get? i with
      | some v => .ok (.rv v)
      | none => .error ( "row has no value for column " ++ n)
    | none => .error ( "name '" ++ n ++ "' is not defined")
  | .lit v => .ok (.rv v)
  | .cmp op a b =>
    match evalQ cols row a, evalQ cols row b with
    | .ok (.rv x), .ok (.rv y) =>
      match evalCmp op x y with
      | .ok r => .ok (.rb r)
      | .error e => .error e
    | .error e, _ => .error e
    | _, .error e => .error e
    | _, _ => .error ( "comparison of boolean operands")
  | .land a b =>
    match evalQ cols row a, evalQ cols row b with
    | .ok (.rb x), .ok (.rb y) => .ok (.rb (x && y))
    | .error e, _ => .error e
    | _, .error e => .error e
    | _, _ => .error ( "logical operator requires boolean operands")
  | .lor a b =>
    match evalQ cols row a, evalQ cols row b with
    | .ok (.rb x), .ok (.rb y) => .ok (.rb (x || y))
    | .error e, _ => .error e
    | _, .error e => .error e
    | _, _ => .error ( "logical operator requires boolean operands")
  | .lnot a =>
    match evalQ cols row a with
    | .ok (.rb x) => .ok (.rb (!x))
    | .error e => .error e
    | _ => .error ( "logical operator requires boolean operands")
  | .isin a vs =>
    match evalQ cols row a with
    | .ok (.rv v) => .ok (.rb (vs.contains v))
    | .error e => .error e
    | _ => .error ( "isin requires a value operand")

/-- Evaluate a query expression to the row's boolean mask entry. -/
def evalRowBool (cols : List String) (ast : QExpr) (row : List Val) :
    Except String Bool :=
  match evalQ cols row ast with
  | .ok (.rb b) => .ok b
  | .ok (.rv _) => .error ( "expression is not a boolean filter")
  | .error e => .error e

/-- A DataFrame: ordered column names and row-major cells. -/
structure Df where
  cols : List String
  rows : List (List Val)
deriving DecidableEq, Repr

/-- Can this cell be reinterpreted as a number? -/
def canNumVal : Val → Bool
  | .num _ => true
  | .str s => (pyParseNum s.toList).isSome

/-- Reinterpret a cell as a number where possible. -/
def coerceVal : Val → Val
  | .num q => .num q
  | .str s =>
    match pyParseNum s.toList with
    | some q => .num q
    | none => .str s

/-- The cells of column `j`. -/
def colVals (rows : List (List Val)) (j : ℕ) : List Val :=
  rows.filterMap (fun r => r.get? j)

/-- Lines 64-71: best-effort numeric coercion.  `pd.to_numeric(errors="ignore")`
converts a text column if and only if every cell parses; otherwise the column
is left unchanged (never partially converted). -/
def coerceDf (df : Df) : Df :=
  ⟨ df.cols,
    df.rows.map (fun r =>
      r.mapIdx (fun j v =>
        if (colVals df.rows j).all canNumVal then coerceVal v else v)) ⟩

/-- Build the filtered row list from the rowwise mask, failing if any row
fails to evaluate. -/
def filterRowsE (p : List Val → Except String Bool) :
    List (List Val) → Except String (List (List Val))
  | [] => .ok []
  | r :: rs =>
    match p r with
    | .error e => .error e
    | .ok b =>
      match filterRowsE p rs with
      | .error e => .error e
      | .ok rest => .ok (if b then r :: rest else rest)

/-- Model of `DataFrame.query`: parse the expression, resolve the referenced
names against the columns, and keep the rows whose mask entry is true. -/
def dfQuery (df : Df) (s : String) : Except String Df :=
  match parseQueryString s with
  | .error e => .error e
  | .ok ast =>
    match (qexprColumns ast).find? (fun c => !(df.cols.contains c)) with
    | some c => .error ( "name '" ++ c ++ "' is not defined")
    | none =>
      match filterRowsE (evalRowBool df.cols ast) df.rows with
      | .error e => .error e
      | .ok rows => .ok ⟨ df.cols, rows ⟩

/-- Lines 209-220: the dry run of the compiled expression against an empty
frame shaped with the valid columns — with no rows, it checks the syntax and
the referenced names. -/
def queryDryRun (s : String) (validCols : List String) : Except String Unit :=
  match parseQueryString s with
  | .error e => .error e
  | .ok ast =>
    match (qexprColumns ast).find? (fun c => !(validCols.contains c)) with
    | some c => .error ( "name '" ++ c ++ "' is not defined")
    | none => .ok ()

/-- Lines 116-222 of `_parse_condition_to_query`, after the invalid-column
gate: quoting, membership rewriting, operator mapping and the final dry run.
The no-op replaces at lines 206-207 (both sides equal) are omitted as
identities. -/
def parse_condition_rest (original : String) (cs0 : List Char)
    (columns : List String) (validCols : List String) : Except String String :=
  let quoted := (findQuoted cs0).map String.mk
  let cs1 := applyQuotedCols quoted validCols cs0
  let cs2 := wrapColumns columns validCols cs1
  let cs3 := sqToDq cs2
  match reSubIn cs3 with
  | .error e => .error e
  | .ok cs4 =>
    let cs6 := applyOperatorPatterns (logicSubs cs4)
    let condT := String.mk cs6
    match queryDryRun condT validCols with
    | .ok _ => .ok condT
    | .error e =>
      .error ( "无效的条件表达式: " ++ e ++ "\n原条件: " ++ original ++
        "\n转换后: " ++ condT ++ "\n提示: 请检查列名、操作符和值格式是否正确")

/-- Model of `_parse_condition_to_query` (lines 81-222): normalise, extract
the referenced names, reject unknown columns, then rewrite the condition into
a pandas query expression validated by a dry run. -/
def parse_condition_to_query (condition : String) (validCols : List String) :
    Except String String :=
  let invalid := invalidColumnsOf condition validCols
  if invalid.isEmpty then
    parse_condition_rest condition (normalizeCond condition.toList)
      (referencedColumns condition) validCols
  else .error ( "无效列名: " ++ pyListRepr invalid)

/-- Model of `apply_filters_for_data_frame` (lines 30-78): empty condition
returns a copy; otherwise coerce text columns to numbers where possible,
compile the condition against the column names, run the query, and wrap any
failure in the `条件查询失败` `ValueError`. -/
def apply_filters_for_data_frame (df : Df) (condition : String) :
    Except String Df :=
  if condition = "" then .ok df
  else
    let dfc := coerceDf df
    match parse_condition_to_query condition dfc.cols with
    | .error e => .error ( "条件查询失败: " ++ e)
    | .ok q =>
      match dfQuery dfc q with
      | .error e => .error ( "条件查询失败: " ++ e)
      | .ok out => .ok out

/-!
Outlier filter `__filter_abnormal_3delta` (lines 260-264).  The target column
is a list of optional reals, `none` modelling a missing (`NaN`) cell; the
source first maps infinities to `NaN` in its percentile pipeline and a `NaN`
comparison is false, so missing cells are dropped by the mask.  `mean` and
`std` skip missing cells (pandas `skipna=True`) and `std` uses the pandas
default `ddof=1`.
-/

/-- Pandas `Series.mean` over the non-missing cells. -/
noncomputable def dmean (vals : List ℝ) : ℝ := vals.sum / (vals.length : ℝ)

/-- Pandas `Series.std` (sample standard deviation, `ddof=1`) over the
non-missing cells. -/
noncomputable def dstd (vals : List ℝ) : ℝ :=
  Real.sqrt ((vals.map (fun v => (v - dmean vals) ^ 2)).sum / ((vals.length : ℝ) - 1))

/-- Model of `__filter_abnormal_3delta`: keep the rows whose value lies
strictly between `mean − 3·std` and `mean + 3·std`; missing cells fail both
strict comparisons and are dropped. -/
noncomputable def filter_abnormal_3delta (col : List (Option ℝ)) : List (Option ℝ) :=
  let vals := col.filterMap id
  let lower := dmean vals - 3 * dstd vals
  let upper := dmean vals + 3 * dstd vals
  col.filter (fun o =>
    match o with
    | none => false
    | some v => decide (lower < v) && decide (v < upper))

/-!
Rolling percentile `__calculate_percentile` (lines 226-257).  The series is
the target column in row (date) order, cells as optional rationals, `none`
modelling `NaN` (the source first replaces infinities by `NaN`).  Dates enter
only through the time-weighted interpolation of the cleaning step.
-/

/-- Line 236, `safe_percentile`: drop `NaN`s from the raw window; below 60
valid observations return `NaN`; otherwise the share of the history (the
valid window without its last element, the current value) that the current
value strictly exceeds, times 100. -/
def safe_percentile (x : List (Option ℚ)) : Option ℚ :=
  let valid := x.filterMap id
  if valid.length < 60 then none
  else
    match valid.getLast? with
    | none => none
    | some current =>
      let history := valid.dropLast
      some ((history.countP (fun h => decide (h < current)) : ℚ) /
        (history.length : ℚ) * 100)

/-- The rolling window of `min(1260, i+1)` trailing rows ending at row `i`. -/
def rollingWindow (s : List (Option ℚ)) (i : ℕ) : List (Option ℚ) :=
  (s.take (i + 1)).drop (i + 1 - 1260)

/-- Line 246: `rolling(window=1260, min_periods=60).apply(safe_percentile)`.
`min_periods` yields `NaN` when the window holds fewer than 60 non-missing
observations; otherwise `safe_percentile` is applied to the raw window. -/
def rollingApply (s : List (Option ℚ)) : List (Option ℚ) :=
  (List.range s.length).map (fun i =>
    let w := rollingWindow s i
    if (w.filterMap id).length < 60 then none else safe_percentile w)

/-- Forward fill with a carried last value. -/
def ffillAux : Option ℚ → List (Option ℚ) → List (Option ℚ)
  | _, [] => []
  | carry, none :: xs => carry :: ffillAux carry xs
  | _, some v :: xs => some v :: ffillAux (some v) xs

/-- Pandas `Series.ffill`. -/
def ffill (l : List (Option ℚ)) : List (Option ℚ) := ffillAux none l

/-- Pandas `Series.bfill`. -/
def bfill (l : List (Option ℚ)) : List (Option ℚ) :=
  (ffillAux none l.reverse).reverse

/-- The nearest valid cell at or before position `i`. -/
def prevValid (l : List (Option ℚ)) (i : ℕ) : Option (ℕ × ℚ) :=
  ((List.range (i + 1)).reverse).findSome?
    (fun j => ((l.get? j).join).map (fun v => (j, v)))

/-- The nearest valid cell strictly after position `i`. -/
def nextValid (l : List (Option ℚ)) (i : ℕ) : Option (ℕ × ℚ) :=
  ((List.range l.length).drop (i + 1)).findSome?
    (fun j => ((l.get? j).join).map (fun v => (j, v)))

/-- Pandas `interpolate(method="linear")` with the default forward limit
direction: interior gaps are filled linearly by position, trailing missing
cells take the last valid value, leading missing cells stay missing. -/
def interpolateLinear (l : List (Option ℚ)) : List (Option ℚ) :=
  (List.range l.length).map (fun i =>
    match (l.get? i).join with
    | some v => some v
    | none =>
      match prevValid l i, nextValid l i with
      | some (j, vj), some (k, vk) =>
        some (vj + (vk - vj) * ((i : ℚ) - (j : ℚ)) / ((k : ℚ) - (j : ℚ)))
      | some (_, vj), none => some vj
      | none, _ => none)

/-- Pandas `interpolate(method="time")`: like linear interpolation but
weighted by the date distances. -/
def interpolateTime (dates : List ℚ) (l : List (Option ℚ)) : List (Option ℚ) :=
  (List.range l.length).map (fun i =>
    match (l.get? i).join with
    | some v => some v
    | none =>
      match prevValid l i, nextValid l i with
      | some (j, vj), some (k, vk) =>
        some (vj + (vk - vj) * (dates.getD i 0 - dates.getD j 0) /
          (dates.getD k 0 - dates.getD j 0))
      | some (_, vj), none => some vj
      | none, _ => none)

/-- Lines 232-233: the cleaning step — infinities already mapped to missing,
then time interpolation, forward fill, backward fill. -/
def cleanSeries (dates : List ℚ) (vals : List (Option ℚ)) : List (Option ℚ) :=
  bfill (ffill (interpolateTime dates vals))

/-- Lines 252-254: the post-fill of the percentile column — linear
interpolation, forward fill, backward fill. -/
def postFill (l : List (Option ℚ)) : List (Option ℚ) :=
  bfill (ffill (interpolateLinear l))

/-- Model of `__calculate_percentile`, returning the new
`<name>_percentile` column for a series given in date order. -/
def calculate_percentile (dates : List ℚ) (vals : List (Option ℚ)) :
    List (Option ℚ) :=
  postFill (rollingApply (cleanSeries dates vals))

/-- Did compilation produce a query expression (rather than raising)? -/
def exceptIsOkStr : Except String String → Bool
  | .ok _ => true
  | .error _ => false

/-!
Claim theorems.
-/

/-- The invalid-column gate: when some referenced name is not a valid column,
the compiler raises the `无效列名` error listing the invalid names. -/
theorem parse_condition_invalid (cond : String) (cols : List String)
    (h : invalidColumnsOf cond cols ≠ []) :
    parse_condition_to_query cond cols =
      .error ( "无效列名: " ++ pyListRepr (invalidColumnsOf cond cols)) := by
  have hb : (invalidColumnsOf cond cols).isEmpty = false := by
    cases hl : invalidColumnsOf cond cols with
    | nil => exact absurd hl h
    | cons a l => rfl
  simp only [parse_condition_to_query, hb, Bool.false_eq_true, if_false]

/-- C1: for every column set and every condition referencing at least one
name outside it, `_parse_condition_to_query` raises the invalid-column
`ValueError` whose message lists exactly the referenced names missing from
the column set, and `apply_filters_for_data_frame` rejects the whole
condition with no filtered result. -/
theorem C1_invalid_columns_rejected (cond : String) (cols : List String)
    (h : invalidColumnsOf cond cols ≠ []) :
    parse_condition_to_query cond cols =
      .error ( "无效列名: " ++ pyListRepr (invalidColumnsOf cond cols)) ∧
    (∀ x, x ∈ invalidColumnsOf cond cols ↔ x ∈ referencedColumns cond ∧ x ∉ cols) ∧
    ∀ df : Df, df.cols = cols →
      apply_filters_for_data_frame df cond =
        .error ( "条件查询失败: " ++ ( "无效列名: " ++
          pyListRepr (invalidColumnsOf cond cols))) := by
  refine ⟨parse_condition_invalid cond cols h, ?_, ?_⟩
  · intro x
    simp [invalidColumnsOf, List.mem_filter]
  · intro df hdf
    have hcond : ¬(cond = "") := by
      intro he
      rw [he] at h
      exact h rfl
    have hcols : (coerceDf df).cols = cols := by rw [← hdf]; rfl
    simp only [apply_filters_for_data_frame, if_neg hcond, hcols,
      parse_condition_invalid cond cols h]

/-- Witness for C1: Scenario C, condition `foo > 1` on a dataset without a
`foo` column. -/
theorem C1_invalid_columns_rejected_witness :
    invalidColumnsOf "foo > 1" [ "bar" ] ≠ [] ∧
    parse_condition_to_query "foo > 1" [ "bar" ] =
      .error ( "无效列名: " ++ pyListRepr (invalidColumnsOf "foo > 1" [ "bar" ])) :=
  ⟨ by decide, (C1_invalid_columns_rejected "foo > 1" [ "bar" ] (by decide)).1 ⟩

/-- Successful row filtering returns a sublist of the scanned rows. -/
theorem filterRowsE_sublist {p : List Val → Except String Bool}
    {l r : List (List Val)} (h : filterRowsE p l = .ok r) : r.Sublist l := by
  induction l generalizing r with
  | nil =>
    simp only [filterRowsE] at h
    cases h
    exact List.Sublist.refl _
  | cons a as ih =>
    simp only [filterRowsE] at h
    cases hp : p a with
    | error e => rw [hp] at h; cases h
    | ok b =>
      rw [hp] at h
      cases hr : filterRowsE p as with
      | error e => rw [hr] at h; cases h
      | ok rest =>
        rw [hr] at h
        cases h
        cases b with
        | true => exact (ih hr).cons₂ a
        | false => exact (ih hr).cons a

/-- C2 counterexample: the condition `pe >` references only the valid column
`pe` yet compilation fails (at the dry-run syntax validation), so compilation
does not succeed for every condition whose referenced names are all valid. -/
theorem C2_counterexample :
    (referencedColumns "pe >").all (fun c => [ "pe" ].contains c) = true ∧
    exceptIsOkStr (parse_condition_to_query "pe >" [ "pe" ]) = false := by decide

/-- C2 (amended): a condition referencing only valid columns may still fail
compilation (malformed syntax); whenever `apply_filters_for_data_frame`
succeeds, the returned rows are a sublist of the input rows (of the
type-coerced input when a non-empty condition was applied), so the returned
row count is at most the original. -/
theorem C2_filter_returns_subset (df : Df) (cond : String) (out : Df)
    (h : apply_filters_for_data_frame df cond = .ok out) :
    out.rows.length ≤ df.rows.length ∧
    (out.rows.Sublist df.rows ∨ out.rows.Sublist (coerceDf df).rows) := by
  simp only [apply_filters_for_data_frame] at h
  by_cases hc : cond = ""
  · rw [if_pos hc] at h
    cases h
    exact ⟨le_refl _, Or.inl (List.Sublist.refl _)⟩
  · rw [if_neg hc] at h
    cases hp : parse_condition_to_query cond (coerceDf df).cols with
    | error e => rw [hp] at h; cases h
    | ok q =>
      rw [hp] at h
      dsimp only at h
      cases hq : dfQuery (coerceDf df) q with
      | error e => rw [hq] at h; cases h
      | ok o =>
        rw [hq] at h
        dsimp only at h
        cases h
        simp only [dfQuery] at hq
        cases hps : parseQueryString q with
        | error e => rw [hps] at hq; cases hq
        | ok ast =>
          rw [hps] at hq
          dsimp only at hq
          cases hf : (qexprColumns ast).find? (fun c => !((coerceDf df).cols.contains c)) with
          | some c => rw [hf] at hq; cases hq
          | none =>
            rw [hf] at hq
            dsimp only at hq
            cases hfr : filterRowsE (evalRowBool (coerceDf df).cols ast) (coerceDf df).rows with
            | error e => rw [hfr] at hq; cases hq
            | ok rows =>
              rw [hfr] at hq
              dsimp only at hq
              cases hq
              have hsub := filterRowsE_sublist hfr
              refine ⟨?_, Or.inr hsub⟩
              calc rows.length ≤ (coerceDf df).rows.length := hsub.length_le
                _ = df.rows.length := by simp [coerceDf]

/-- Witness for C2: `pe > 20` on a one-row frame succeeds and keeps the row. -/
theorem C2_filter_returns_subset_witness :
    apply_filters_for_data_frame ⟨ [ "pe" ], [ [ Val.num 25 ] ] ⟩ "pe > 20" =
      .ok ⟨ [ "pe" ], [ [ Val.num 25 ] ] ⟩ ∧
    (⟨ [ "pe" ], [ [ Val.num 25 ] ] ⟩ : Df).rows.length ≤
      (⟨ [ "pe" ], [ [ Val.num 25 ] ] ⟩ : Df).rows.length := by
  have hok : apply_filters_for_data_frame ⟨ [ "pe" ], [ [ Val.num 25 ] ] ⟩ "pe > 20" =
      .ok ⟨ [ "pe" ], [ [ Val.num 25 ] ] ⟩ := by decide
  exact ⟨hok, (C2_filter_returns_subset _ _ _ hok).1⟩

/-- C3: Scenario A — on the dataset with columns `pe`, `roe` and rows
`{pe:25, roe:0.2}`, `{pe:15, roe:0.3}`, the condition
`pe > 20 AND roe >= 0.15` succeeds and returns exactly the first row, `AND`
having been compiled to the conjunction `&` by word-boundary-safe
substitution. -/
theorem C3_scenario_a :
    apply_filters_for_data_frame
      ⟨ [ "pe", "roe" ], [ [ .num 25, .num (2/10) ], [ .num 15, .num (3/10) ] ] ⟩
      "pe > 20 AND roe >= 0.15" =
      .ok ⟨ [ "pe", "roe" ], [ [ .num 25, .num (2/10) ] ] ⟩ ∧
    parse_condition_to_query "pe > 20 AND roe >= 0.15" [ "pe", "roe" ] =
      .ok ( "`pe` > 20 & `roe` >= 0.15") := by decide

/-- C4: the source rejects Scenario B instead of filtering — on the dataset
whose `code` column holds 600000, 000001, 601318, the condition
`code in ['600000','601318']` raises the invalid-column error naming `in`,
because the identifier pattern captures the operator word `in` and the
keyword set lacks it; the docstring of `apply_filters_for_data_frame`
promises `in` filtering, so the code contradicts its own documentation. -/
theorem C4_membership_rejected :
    apply_filters_for_data_frame
      ⟨ [ "code" ], [ [ .str "600000" ], [ .str "000001" ], [ .str "601318" ] ] ⟩
      "code in ['600000','601318']" =
      .error ( "条件查询失败: 无效列名: ['in']") ∧
    referencedColumns "code in ['600000','601318']" = [ "code", "in" ] := by decide

/-- C5 counterexample: neither `name contains 'x'` nor
`name not contains 'x'` compiles on a dataset with valid column `name` — no
substring-test predicate is ever produced, so the two conditions cannot yield
the claimed common compiled predicate. -/
theorem C5_counterexample :
    exceptIsOkStr (parse_condition_to_query "name contains 'x'" [ "name" ]) = false ∧
    exceptIsOkStr (parse_condition_to_query "name not contains 'x'" [ "name" ]) = false := by
  decide

/-- C5 (amended): every condition using the `contains` operator is rejected
by the invalid-column gate (the word `contains` itself is validated as a
column reference), so `c contains s` and `c not contains s` behave
identically — both raise the same invalid-column error and neither produces
a substring-test predicate. -/
theorem C5_contains_and_not_contains_agree :
    (∀ cond cols, "contains" ∈ referencedColumns cond → "contains" ∉ cols →
      parse_condition_to_query cond cols =
        .error ( "无效列名: " ++ pyListRepr (invalidColumnsOf cond cols))) ∧
    parse_condition_to_query "name contains 'x'" [ "name" ] =
      parse_condition_to_query "name not contains 'x'" [ "name" ] ∧
    parse_condition_to_query "name contains 'x'" [ "name" ] =
      .error ( "无效列名: ['contains', 'x']") := by
  refine ⟨?_, by decide, by decide⟩
  intro cond cols hmem hnot
  apply parse_condition_invalid
  intro hnil
  have hx : ( "contains" : String) ∈ invalidColumnsOf cond cols := by
    simp [invalidColumnsOf, List.mem_filter, hmem, hnot]
  rw [hnil] at hx
  cases hx

/-- Witness for C5: a concrete `contains` condition rejected by the gate. -/
theorem C5_contains_and_not_contains_agree_witness :
    ( "contains" ∈ referencedColumns "a contains b") ∧
    parse_condition_to_query "a contains b" [ "a", "b" ] =
      .error ( "无效列名: " ++ pyListRepr (invalidColumnsOf "a contains b" [ "a", "b" ])) :=
  ⟨ by decide,
    C5_contains_and_not_contains_agree.1 "a contains b" [ "a", "b" ] (by decide) (by decide) ⟩

/-- C10: the identifier pattern also matches words inside quoted string
literals and the gate validates them as column references — the condition
`city = 'Beijing'` on a dataset with valid column `city` extracts both
`city` and `Beijing` and fails with the invalid-column error naming
`Beijing`. -/
theorem C10_literal_content_validated :
    referencedColumns "city = 'Beijing'" = [ "city", "Beijing" ] ∧
    parse_condition_to_query "city = 'Beijing'" [ "city" ] =
      .error ( "无效列名: ['Beijing']") ∧
    apply_filters_for_data_frame ⟨ [ "city" ], [ [ .str "Beijing" ] ] ⟩
      "city = 'Beijing'" = .error ( "条件查询失败: 无效列名: ['Beijing']") := by decide

/-- C6: whenever the column's standard deviation is positive, every row the
3σ filter retains carries a present value strictly inside
`(mean − 3·std, mean + 3·std)`; rows with missing values are dropped. -/
theorem C6_retained_rows_within_bounds (col : List (Option ℝ))
    (_hσ : 0 < dstd (col.filterMap id)) :
    ∀ o ∈ filter_abnormal_3delta col, ∃ v : ℝ, o = some v ∧
      dmean (col.filterMap id) - 3 * dstd (col.filterMap id) < v ∧
      v < dmean (col.filterMap id) + 3 * dstd (col.filterMap id) := by
  intro o ho
  simp only [filter_abnormal_3delta] at ho
  obtain ⟨-, hpred⟩ := List.mem_filter.mp ho
  cases o with
  | none => simp at hpred
  | some v =>
    refine ⟨v, rfl, ?_, ?_⟩
    · have := (Bool.and_eq_true _ _).mp hpred |>.1
      exact of_decide_eq_true this
    · have := (Bool.and_eq_true _ _).mp hpred |>.2
      exact of_decide_eq_true this

/-- Witness for C6: a two-row column with values 0 and 2 has positive
standard deviation, and the filter keeps only in-bounds present values. -/
theorem C6_retained_rows_within_bounds_witness :
    0 < dstd (([ some (0:ℝ), some 2 ]).filterMap id) ∧
    ∀ o ∈ filter_abnormal_3delta [ some (0:ℝ), some 2 ], ∃ v : ℝ, o = some v ∧
      dmean (([ some (0:ℝ), some 2 ]).filterMap id) -
        3 * dstd (([ some (0:ℝ), some 2 ]).filterMap id) < v ∧
      v < dmean (([ some (0:ℝ), some 2 ]).filterMap id) +
        3 * dstd (([ some (0:ℝ), some 2 ]).filterMap id) := by
  have hfm : ([ some (0:ℝ), some 2 ]).filterMap id = [ 0, 2 ] := rfl
  have hmean : dmean [ (0:ℝ), 2 ] = 1 := by
    norm_num [dmean, List.sum_cons, List.sum_nil]
  have hstd : dstd [ (0:ℝ), 2 ] = Real.sqrt 2 := by
    simp only [dstd, hmean, List.map_cons, List.map_nil, List.sum_cons, List.sum_nil,
      List.length_cons, List.length_nil]
    norm_num
  have hσ : 0 < dstd (([ some (0:ℝ), some 2 ]).filterMap id) := by
    rw [hfm, hstd]
    exact Real.sqrt_pos.mpr (by norm_num)
  exact ⟨hσ, C6_retained_rows_within_bounds _ hσ⟩

/-- Helper: the mean of a constant nonempty list is the constant. -/
theorem dmean_const (l : List ℝ) (c : ℝ) (hne : l ≠ []) (h : ∀ x ∈ l, x = c) :
    dmean l = c := by
  have hsum : l.sum = l.length • c := List.sum_eq_card_nsmul l c h
  have hlen : (l.length : ℝ) ≠ 0 := by
    simpa using List.length_pos.mpr hne |>.ne'
  rw [dmean, hsum, nsmul_eq_mul]
  field_simp

/-- Helper: the sample standard deviation of a constant list is zero. -/
theorem dstd_const (l : List ℝ) (c : ℝ) (h : ∀ x ∈ l, x = c) : dstd l = 0 := by
  rcases eq_or_ne l [] with rfl | hne
  · simp [dstd, dmean]
  · have hmap : l.map (fun v => (v - dmean l) ^ 2) = l.map (fun _ => 0) := by
      apply List.map_congr_left
      intro x hx
      rw [h x hx, dmean_const l c hne h, sub_self]
      norm_num
    rw [dstd, hmap]
    simp [Real.sqrt_eq_zero']

/-- Helper: the 3σ filter on a column whose present values are all equal
drops every row — the bounds collapse to `(c, c)` and the comparisons are
strict. -/
theorem filter_abnormal_3delta_const (col : List (Option ℝ)) (c : ℝ)
    (h : ∀ v ∈ col.filterMap id, v = c) :
    filter_abnormal_3delta col = [] := by
  simp only [filter_abnormal_3delta]
  rw [List.filter_eq_nil_iff]
  intro o ho
  cases o with
  | none => simp
  | some v =>
    have hv : v ∈ col.filterMap id := List.mem_filterMap.mpr ⟨some v, ho, rfl⟩
    have hvc := h v hv
    have hne : col.filterMap id ≠ [] := by
      intro hnil
      rw [hnil] at hv
      cases hv
    have hm := dmean_const _ c hne h
    have hs := dstd_const _ c h
    subst hvc
    simp [hm, hs, lt_irrefl]

/-- C7 counterexample: on the constant column `[5, 5]` (σ = 0) the filter
retains nothing, although both rows hold the finite value 5. -/
theorem C7_counterexample :
    filter_abnormal_3delta [ some (5:ℝ), some 5 ] = [] ∧
    some (5:ℝ) ∈ [ some (5:ℝ), some 5 ] := by
  constructor
  · apply filter_abnormal_3delta_const _ 5
    intro v hv
    simpa using hv
  · exact List.mem_cons_self _ _

/-- C7 (amended): on a dataset whose target column is constant (σ = 0) the
filter retains no rows at all — the bounds collapse to the single value and
the strict comparisons exclude it. -/
theorem C7_constant_column_drops_all_rows (col : List (Option ℝ)) (c : ℝ)
    (h : ∀ v ∈ col.filterMap id, v = c) :
    filter_abnormal_3delta col = [] :=
  filter_abnormal_3delta_const col c h

/-- Witness for C7: the constant column `[5, 5]`. -/
theorem C7_constant_column_drops_all_rows_witness :
    (∀ v ∈ ([ some (5:ℝ), some 5 ]).filterMap id, v = 5) ∧
    filter_abnormal_3delta [ some (5:ℝ), some 5 ] = [] := by
  have h5 : ∀ v ∈ ([ some (5:ℝ), some 5 ]).filterMap id, v = 5 := by
    intro v hv
    simpa using hv
  exact ⟨h5, C7_constant_column_drops_all_rows _ 5 h5⟩

/-- Helper: a list ending in a present value keeps it as the last element of
its `filterMap id`. -/
theorem getLast?_filterMap_id {l : List (Option ℚ)} {v : ℚ}
    (h : l.getLast? = some (some v)) : (l.filterMap id).getLast? = some v := by
  have hmem : some v ∈ l.getLast? := by rw [Option.mem_def]; exact h
  have hsplit := List.dropLast_append_getLast? (some v) hmem
  calc (l.filterMap id).getLast?
      = ((l.dropLast ++ [some v]).filterMap id).getLast? := by rw [hsplit]
    _ = (l.dropLast.filterMap id ++ [v]).getLast? := by
        rw [List.filterMap_append]; rfl
    _ = some v := List.getLast?_concat _

/-- Helper: the rolling window of row `i` ends at row `i`. -/
theorem getLast?_rollingWindow (s : List (Option ℚ)) (i : ℕ) (hi : i < s.length) :
    (rollingWindow s i).getLast? = s[i]? := by
  have htake : (s.take (i + 1)).getLast? = s[i]? := by
    rw [List.take_succ, List.getElem?_eq_getElem hi]
    exact List.getLast?_concat _
  have hne : (s.take (i + 1)).drop (i + 1 - 1260) ≠ [] := by
    apply List.ne_nil_of_length_pos
    rw [List.length_drop, List.length_take]
    omega
  unfold rollingWindow
  calc ((s.take (i + 1)).drop (i + 1 - 1260)).getLast?
      = (((s.take (i + 1)).take (i + 1 - 1260) ++
          (s.take (i + 1)).drop (i + 1 - 1260))).getLast? := by
        rw [List.getLast?_append_of_ne_nil _ hne]
    _ = (s.take (i + 1)).getLast? := by rw [List.take_append_drop]
    _ = s[i]? := htake

/-- C8: for every row `i`, with at least 60 valid observations in the
trailing window of up to 1260 rows ending at `i` and a present value `v` at
row `i`, the rolling percentile is (count of window observations strictly
below `v`) / (number of prior observations, the window's valid count minus
one) × 100; with fewer than 60 valid observations it is missing. -/
theorem C8_rolling_percentile (s : List (Option ℚ)) (i : ℕ) (hi : i < s.length) :
    (((rollingWindow s i).filterMap id).length < 60 →
      (rollingApply s)[i]? = some none) ∧
    (∀ v : ℚ, s[i]? = some (some v) →
      60 ≤ ((rollingWindow s i).filterMap id).length →
      (rollingApply s)[i]? = some (some
        ((((rollingWindow s i).filterMap id).countP (fun u => decide (u < v)) : ℚ) /
          ((((rollingWindow s i).filterMap id).length - 1 : ℕ) : ℚ) * 100))) := by
  have hmap : (rollingApply s)[i]? = some
      (if ((rollingWindow s i).filterMap id).length < 60 then none
        else safe_percentile (rollingWindow s i)) := by
    unfold rollingApply
    rw [List.getElem?_map, List.getElem?_range hi]
    rfl
  constructor
  · intro hlt
    rw [hmap, if_pos hlt]
  · intro v hv h60
    have hnlt : ¬(((rollingWindow s i).filterMap id).length < 60) := not_lt.mpr h60
    rw [hmap, if_neg hnlt]
    have hlastw : (rollingWindow s i).getLast? = some (some v) := by
      rw [getLast?_rollingWindow s i hi, hv]
    have hlast : ((rollingWindow s i).filterMap id).getLast? = some v :=
      getLast?_filterMap_id hlastw
    have hmeml : v ∈ ((rollingWindow s i).filterMap id).getLast? := by
      rw [Option.mem_def]; exact hlast
    have hsplit := List.dropLast_append_getLast? v hmeml
    unfold safe_percentile
    rw [if_neg hnlt, hlast]
    dsimp only
    have hcnt : (((rollingWindow s i).filterMap id).dropLast).countP
        (fun h => decide (h < v)) =
        ((rollingWindow s i).filterMap id).countP (fun u => decide (u < v)) := by
      conv_rhs => rw [← hsplit]
      rw [List.countP_append]
      simp [List.countP_cons, lt_irrefl]
    have hlen : (((rollingWindow s i).filterMap id).dropLast).length =
        ((rollingWindow s i).filterMap id).length - 1 := List.length_dropLast _
    rw [hcnt, hlen]

/-- Witness for C8: a 60-row constant series; row 59 has a full valid window
of 60 observations and gets the strict-rank formula. -/
theorem C8_rolling_percentile_witness :
    (List.replicate 60 (some (0:ℚ)))[59]? = some (some 0) ∧
    60 ≤ ((rollingWindow (List.replicate 60 (some (0:ℚ))) 59).filterMap id).length ∧
    (rollingApply (List.replicate 60 (some (0:ℚ))))[59]? = some (some
      ((((rollingWindow (List.replicate 60 (some (0:ℚ))) 59).filterMap id).countP
          (fun u => decide (u < (0:ℚ))) : ℚ) /
        ((((rollingWindow (List.replicate 60 (some (0:ℚ))) 59).filterMap id).length
          - 1 : ℕ) : ℚ) * 100)) := by
  refine ⟨by decide, by decide, ?_⟩
  exact (C8_rolling_percentile (List.replicate 60 (some (0:ℚ))) 59 (by decide)).2
    0 (by decide) (by decide)

/-- Helper: forward filling preserves the length. -/
theorem length_ffillAux (c : Option ℚ) (l : List (Option ℚ)) :
    (ffillAux c l).length = l.length := by
  induction l generalizing c with
  | nil => rfl
  | cons a as ih => cases a <;> simp [ffillAux, ih]

/-- Helper: forward filling from a present carry leaves no missing cell. -/
theorem ffillAux_ne_none_of_carry (a : ℚ) (l : List (Option ℚ)) :
    ∀ o ∈ ffillAux (some a) l, o ≠ none := by
  induction l generalizing a with
  | nil => intro o ho; cases ho
  | cons x xs ih =>
    intro o ho
    cases x with
    | none =>
      simp only [ffillAux] at ho
      rcases List.mem_cons.mp ho with rfl | hmem
      · simp
      · exact ih a o hmem
    | some w =>
      simp only [ffillAux] at ho
      rcases List.mem_cons.mp ho with rfl | hmem
      · simp
      · exact ih w o hmem

/-- Helper: the last element after a cons is the tail's last element when the
tail is nonempty. -/
theorem getLast?_cons_of_ne_nil {a : Option ℚ} {t : List (Option ℚ)}
    (h : t ≠ []) : (a :: t).getLast? = t.getLast? := by
  cases t with
  | nil => exact absurd rfl h
  | cons b bs => exact List.getLast?_cons_cons

/-- Helper: forward filling a list holding at least one present value ends
in a present value. -/
theorem ffillAux_getLast_some :
    ∀ (l : List (Option ℚ)) (c : Option ℚ), (∃ x ∈ l, x ≠ none) →
      ∃ w, (ffillAux c l).getLast? = some (some w) := by
  intro l
  induction l with
  | nil =>
    intro c hex
    obtain ⟨x, hx, -⟩ := hex
    cases hx
  | cons a as ih =>
    intro c hex
    cases a with
    | some v =>
      cases as with
      | nil => exact ⟨v, rfl⟩
      | cons b bs =>
        have hne : ffillAux (some v) (b :: bs) ≠ [] := by
          apply List.ne_nil_of_length_pos
          rw [length_ffillAux]
          simp
        obtain ⟨o, ho⟩ : ∃ o, (ffillAux (some v) (b :: bs)).getLast? = some o := by
          cases hh : (ffillAux (some v) (b :: bs)).getLast? with
          | some o => exact ⟨o, rfl⟩
          | none => exact absurd (List.getLast?_eq_none_iff.mp hh) hne
        have homem : o ∈ ffillAux (some v) (b :: bs) := by
          obtain ⟨hne2, heq⟩ := List.mem_getLast?_eq_getLast (x := o)
            (by rw [Option.mem_def]; exact ho)
          rw [heq]
          exact List.getLast_mem hne2
        have honn := ffillAux_ne_none_of_carry v (b :: bs) o homem
        cases o with
        | none => exact absurd rfl honn
        | some w =>
          refine ⟨w, ?_⟩
          show (some v :: ffillAux (some v) (b :: bs)).getLast? = some (some w)
          rw [getLast?_cons_of_ne_nil hne]
          exact ho
    | none =>
      obtain ⟨x, hx, hne⟩ := hex
      have hxas : x ∈ as := by
        rcases List.mem_cons.mp hx with rfl | h'
        · exact absurd rfl hne
        · exact h'
      obtain ⟨w, hw⟩ := ih c ⟨x, hxas, hne⟩
      have hasne : ffillAux c as ≠ [] := by
        apply List.ne_nil_of_length_pos
        rw [length_ffillAux]
        exact List.length_pos.mpr (fun hnil => by rw [hnil] at hxas; cases hxas)
      refine ⟨w, ?_⟩
      show (c :: ffillAux c as).getLast? = some (some w)
      rw [getLast?_cons_of_ne_nil hasne]
      exact hw

/-- Helper: backward filling a list that ends in a present value leaves no
missing cell. -/
theorem bfill_ne_none (l : List (Option ℚ))
    (h : ∃ w, l.getLast? = some (some w)) : ∀ o ∈ bfill l, o ≠ none := by
  obtain ⟨w, hw⟩ := h
  have hrev : l.reverse.head? = some (some w) := by rw [List.head?_reverse, hw]
  cases hl : l.reverse with
  | nil => rw [hl] at hrev; cases hrev
  | cons a t =>
    rw [hl] at hrev
    have ha : a = some w := by
      simp only [List.head?] at hrev
      injection hrev
    subst ha
    intro o ho
    unfold bfill at ho
    rw [hl] at ho
    rw [List.mem_reverse] at ho
    simp only [ffillAux] at ho
    rcases List.mem_cons.mp ho with rfl | hmem
    · simp
    · exact ffillAux_ne_none_of_carry w t o hmem

/-- Helper: linear interpolation keeps every present cell. -/
theorem interpolateLinear_getElem (l : List (Option ℚ)) (i : ℕ) (v : ℚ)
    (h : l[i]? = some (some v)) : (interpolateLinear l)[i]? = some (some v) := by
  have hi : i < l.length := by
    rcases List.getElem?_eq_some_iff.mp h with ⟨hlt, -⟩
    exact hlt
  unfold interpolateLinear
  rw [List.getElem?_map, List.getElem?_range hi]
  have hj : (l.get? i).join = some v := by
    rw [List.get?_eq_getElem?, h]
    rfl
  simp only [Option.map_some']
  rw [hj]

/-- Helper: linear interpolation preserves the existence of a present cell. -/
theorem interp_exists_some (l : List (Option ℚ)) (h : ∃ x ∈ l, x ≠ none) :
    ∃ x ∈ interpolateLinear l, x ≠ none := by
  obtain ⟨x, hx, hne⟩ := h
  cases x with
  | none => exact absurd rfl hne
  | some v =>
    obtain ⟨i, hlt, hgi⟩ := List.mem_iff_getElem.mp hx
    have hq : l[i]? = some (some v) := by
      rw [List.getElem?_eq_getElem hlt, hgi]
    have := interpolateLinear_getElem l i v hq
    exact ⟨some v, List.getElem?_mem this, fun hh => by cases hh⟩

/-- C9 counterexample: a one-row dataset never reaches 60 valid
observations, the rolling output is entirely missing, and interpolation with
forward/backward fill cannot fill an all-missing column — the output column
still contains a missing value. -/
theorem C9_counterexample :
    calculate_percentile [ 0 ] [ some 1 ] = [ none ] ∧
    none ∈ calculate_percentile [ 0 ] [ some 1 ] := by decide

/-- C9 (amended): whenever at least one row's percentile is defined before
the post-fill (some row has 60 valid observations in its window), the
post-processing — linear interpolation, forward fill, backward fill — leaves
no missing value in the output percentile column; on an input where no
percentile is ever defined the column stays entirely missing. -/
theorem C9_postfill_fills_column (dates : List ℚ) (vals : List (Option ℚ))
    (h : ∃ x ∈ rollingApply (cleanSeries dates vals), x ≠ none) :
    ∀ o ∈ calculate_percentile dates vals, o ≠ none := by
  have h1 := interp_exists_some _ h
  have h2 := ffillAux_getLast_some
    (interpolateLinear (rollingApply (cleanSeries dates vals))) none h1
  intro o ho
  have ho' : o ∈ bfill (ffillAux none
      (interpolateLinear (rollingApply (cleanSeries dates vals)))) := ho
  exact bfill_ne_none _ h2 o ho'

set_option maxRecDepth 4000 in
/-- Witness for C9: a 60-row constant series has a defined percentile at row
59, and after post-fill the whole output column is present. -/
theorem C9_postfill_fills_column_witness :
    (∃ x ∈ rollingApply (cleanSeries ((List.range 60).map (fun n => (n : ℚ)))
      (List.replicate 60 (some (0:ℚ)))), x ≠ none) ∧
    ∀ o ∈ calculate_percentile ((List.range 60).map (fun n => (n : ℚ)))
      (List.replicate 60 (some (0:ℚ))), o ≠ none := by
  have h : ∃ x ∈ rollingApply (cleanSeries ((List.range 60).map (fun n => (n : ℚ)))
      (List.replicate 60 (some (0:ℚ)))), x ≠ none := by decide
  exact ⟨h, C9_postfill_fills_column _ _ h⟩

end AkshareMcp
